import Mathlib

/-!
Shallow embedding of the navigation, message-composition and event-handling
core of `src/ui/window.go` (package `ui` of the cordless chat client),
together with proofs about the embedded definitions.

Modelling conventions:
* Go strings are modelled as `List Char` (one element per rune); `goLen`
  computes the UTF-8 byte length, which is what Go's `len` returns on a
  string.
* Go `nil` pointers become `Option.none`; dereferencing `none` is made
  explicit in the result types of the functions that can do it.
* External collaborators that are not part of this repository's source
  (the scripting hook, the standard-emoji map, the permission check and the
  explicit-mention predicate from other packages) are carried as function
  fields of the state and universally quantified in the theorems.
-/

set_option maxRecDepth 20000

/-- Go strings, one list element per rune. -/
abbrev Str := List Char

/-- Byte length of a Go string (`len(s)` in Go counts UTF-8 bytes). -/
def goLen (s : Str) : Nat := (s.map Char.utf8Size).sum

/-- Model of Go `strings.TrimSpace`: drop leading and trailing whitespace. -/
def trimSpace (s : Str) : Str :=
  ((s.dropWhile Char.isWhitespace).reverse.dropWhile Char.isWhitespace).reverse

/-- Fuel-driven loop of Go `strings.ReplaceAll`: scan left to right, replace
each non-overlapping occurrence of `old` by `new`.  The fuel is the length of
the scanned string, which suffices because every step consumes at least one
character.  (Go's special case of an empty `old` pattern never occurs in this
code base; an empty `old` is treated as never matching.) -/
def goReplaceAllLoop (old new : Str) : Nat → Str → Str
  | 0, s => s
  | _ + 1, [] => []
  | fuel + 1, c :: rest =>
    if old ≠ [] ∧ old.isPrefixOf (c :: rest) then
      new ++ goReplaceAllLoop old new fuel ((c :: rest).drop old.length)
    else
      c :: goReplaceAllLoop old new fuel rest

/-- Model of Go `strings.ReplaceAll s old new`. -/
def goReplaceAll (s old new : Str) : Str :=
  goReplaceAllLoop old new s.length s

/-- Channel type constants of the discordgo library. -/
def channelTypeGuildText : Nat := 0

/-- Channel type `discordgo.ChannelTypeDM`. -/
def channelTypeDM : Nat := 1

/-- Channel type `discordgo.ChannelTypeGroupDM`. -/
def channelTypeGroupDM : Nat := 3

/-- Premium type `discordgo.UserPremiumTypeNitroClassic`. -/
def userPremiumTypeNitroClassic : Nat := 1

/-- Premium type `discordgo.UserPremiumTypeNitro`. -/
def userPremiumTypeNitro : Nat := 2

/-- Page name constant `guildPageName` from window.go. -/
def guildPageName : Str := ("Guilds").toList

/-- Page name constant `privatePageName` from window.go. -/
def privatePageName : Str := ("Private").toList

/-- A discord user (the fields window.go reads). -/
structure User where
  id : Str
  username : Str
  discriminator : Str
  premiumType : Nat
deriving DecidableEq, Repr

/-- A guild member: user plus per-guild nickname and role ids. -/
structure Member where
  user : User
  nick : Str
  roles : List Str
deriving DecidableEq, Repr

/-- A custom emoji of a guild. -/
structure Emoji where
  name : Str
  id : Str
  animated : Bool
  roles : List Str
deriving DecidableEq, Repr

/-- A channel (guild text channel, DM or group DM). -/
structure Channel where
  id : Str
  guildID : Str
  name : Str
  type : Nat
  lastMessageID : Str
  recipients : List User
deriving DecidableEq, Repr

/-- A guild with the fields window.go reads. -/
structure Guild where
  id : Str
  name : Str
  channels : List Channel
  members : List Member
  emojis : List Emoji
deriving DecidableEq, Repr

/-- A chat message (the fields the handlers read and write). -/
structure Msg where
  id : Str
  channelID : Str
  guildID : Str
  author : User
  content : Str
  mentions : List Str
  mentionRoles : List Str
  mentionEveryone : Bool
deriving DecidableEq, Repr

/-- The discordgo session state cache as read by window.go.
`selfMemberLookup` combines `State.Member(guildID, selfID)` with the remote
`GuildMember` fallback used in `findMatchInGuild`: `none` means the member is
neither cached nor fetchable (both lookups fail). -/
structure SessionState where
  user : User
  guilds : List Guild
  channels : List Channel
  selfMemberLookup : Str → Option Member

/-- Configuration values window.go reads from `config.GetConfig()`. -/
structure Config where
  desktopNotifications : Bool
deriving DecidableEq, Repr

/-- The `Window` state of window.go, restricted to the fields the verified
functions read or write.  Tree-node references (`*tview.TreeNode`) are
modelled by the reference string the code stores in them (`GetReference()`
yields the guild id for guild-list nodes).  Function-valued fields model
external collaborators that live outside `src/`:
* `jsOnMessageSend` — the scripting hook `window.jsEngine.OnMessageSend`;
* `emojimapReplace` — `discordemojimap.Replace` (standard emoji shortcodes);
* `hasReadMessagesPermission` — `discordutil.HasReadMessagesPermission`;
* `mentionsCurrentUserExplicitly` — `discordutil.MentionsCurrentUserExplicitly`;
* `isChannelMuted` — `readstate.IsChannelMuted`. -/
structure Window where
  sessionState : SessionState
  config : Config
  editingMessageID : Option Str
  selectedGuild : Option Guild
  selectedGuildNode : Option Str
  previousGuild : Option Guild
  previousGuildNode : Option Str
  selectedChannel : Option Channel
  selectedChannelNode : Option Str
  previousChannel : Option Channel
  previousChannelNode : Option Str
  currentPage : Str
  guildListNodes : List Str
  chatViewData : List Msg
  userActive : Bool
  jsOnMessageSend : Str → Str
  emojimapReplace : Str → Str
  hasReadMessagesPermission : Str → Bool
  mentionsCurrentUserExplicitly : Msg → Bool
  isChannelMuted : Channel → Bool

/-- Cache lookup `window.session.State.Guild(id)`. -/
def stateGuild (w : Window) (id : Str) : Option Guild :=
  w.sessionState.guilds.find? (fun g => g.id = id)

/-- Cache lookup `window.session.State.Channel(id)`. -/
def stateChannel (w : Window) (id : Str) : Option Channel :=
  w.sessionState.channels.find? (fun c => c.id = id)

/-- Cache lookup `window.session.State.Members(guildID)`. -/
def stateMembers (w : Window) (guildID : Str) : Option (List Member) :=
  (stateGuild w guildID).map Guild.members

/-! ### The `emojiRegex` engine

`emojiRegex = regexp.MustCompile("(m?)(^|[^<]):!?.+?:")` from window.go.
The three functions below implement Go's leftmost-first (Perl-style) match
semantics for exactly this pattern: at a match start the engine prefers the
literal `m` branch of `(m?)`, then `^` over `[^<]`, prefers consuming the
optional `!`, and `.+?` takes the shortest non-empty run of non-newline
characters followed by a colon. -/

/-- Scan for the terminating colon of `.+?:`: stop at the first `':'`,
fail on a newline (`.` does not match `'\n'`) or at the end of input. -/
def scanToColon : Str → Option (Str × Str)
  | [] => none
  | c :: rest =>
    if c = ':' then some ([':'], rest)
    else if c = '\n' then none
    else
      match scanToColon rest with
      | some (cs, r) => some (c :: cs, r)
      | none => none

/-- Lazy `.+?:`: one mandatory non-newline character, then up to and
including the first colon. -/
def lazyContent : Str → Option (Str × Str)
  | [] => none
  | c :: rest =>
    if c = '\n' then none
    else
      match scanToColon rest with
      | some (cs, r) => some (c :: cs, r)
      | none => none

/-- Completion of the colon tail without the optional `!`: the lazy content
and its terminating colon, prefixed by the opening colon. -/
def colonNoBang (rest : Str) : Option (Str × Str) :=
  match lazyContent rest with
  | some (cs, r) => some (':' :: cs, r)
  | none => none

/-- The `:!?.+?:` tail of the pattern.  The optional `!` is preferred; if no
match completes with it, the engine backtracks and lets `.+?` consume it. -/
def colonTail : Str → Option (Str × Str)
  | [] => none
  | c :: rest =>
    if c = ':' then
      match rest with
      | d :: rest2 =>
        if d = '!' then
          match lazyContent rest2 with
          | some (cs, r) => some (':' :: '!' :: cs, r)
          | none => colonNoBang rest
        else colonNoBang rest
      | [] => colonNoBang rest
    else none

/-- Consume one `[^<]` character and then the colon tail (the shared shape of
the `(m?)`-consumed branch and the plain `[^<]` branch). -/
def tryMatchTail (c : Char) (rest : Str) : Option (Str × Str) :=
  if c ≠ '<' then
    match colonTail rest with
    | some (cs, r) => some (c :: cs, r)
    | none => none
  else none

/-- Try to match `(m?)(^|[^<]):!?.+?:` starting exactly at the head of `s`;
`atStart` tells whether this position is the start of the whole text (the
only place `^` can match, the pattern is not in multi-line mode).  Returns
the matched text and the remaining input.  Branches are tried in the
backtracking order of a leftmost-first engine: literal `m` for `(m?)` first,
then `^` over `[^<]`. -/
def tryMatchAt (atStart : Bool) (s : Str) : Option (Str × Str) :=
  let b1 : Option (Str × Str) :=
    match s with
    | c1 :: c2 :: rest =>
      if c1 = 'm' then (tryMatchTail c2 rest).map (fun p => ('m' :: p.1, p.2))
      else none
    | _ => none
  match b1 with
  | some v => some v
  | none =>
    match (if atStart then colonTail s else none : Option (Str × Str)) with
    | some v => some v
    | none =>
      match s with
      | c :: rest => tryMatchTail c rest
      | [] => none

/-- Fuel-driven core of `Regexp.ReplaceAllStringFunc` for `emojiRegex`: find
the leftmost match, replace it by `repl match`, continue after it; characters
before a match are copied verbatim.  The fuel is the input length, which
suffices because every step consumes at least one character. -/
def emojiRegexReplaceLoop (repl : Str → Str) : Nat → Bool → Str → Str
  | 0, _, s => s
  | fuel + 1, atStart, s =>
    match tryMatchAt atStart s with
    | some (m, rest) => repl m ++ emojiRegexReplaceLoop repl fuel false rest
    | none =>
      match s with
      | [] => []
      | c :: rest => c :: emojiRegexReplaceLoop repl fuel false rest

/-- `emojiRegex.ReplaceAllStringFunc(s, repl)`. -/
def emojiRegexReplaceAll (repl : Str → Str) (s : Str) : Str :=
  emojiRegexReplaceLoop repl s.length true s

/-! ### Custom emoji resolution (`replaceCustomEmojiSequences`,
`findMatchInGuild`, window.go lines 1206-1295) -/

/-- The part of a match before its first colon
(`match[:firstDoubleColon]` in the Go closures). -/
def matchPre (m : Str) : Str := m.takeWhile (fun c => c ≠ ':')

/-- Go `strings.TrimPrefix(s, "!")`. -/
def trimBangPre : Str → Str
  | '!' :: rest => rest
  | s => s

/-- The emoji sequence extracted from a match:
`strings.ToLower(strings.TrimPrefix(match[firstDoubleColon+1:len(match)-1], "!"))`. -/
def matchSeq (m : Str) : Str :=
  (trimBangPre (((m.dropWhile (fun c => c ≠ ':')).drop 1).dropLast)).map Char.toLower

/-- Wire reference for a non-animated custom emoji: `<:name:id>`. -/
def plainEmojiRef (e : Emoji) : Str :=
  ("<:").toList ++ e.name ++ [':'] ++ e.id ++ ['>']

/-- Wire reference for an animated custom emoji: `<a:name:id>`. -/
def animatedEmojiRef (e : Emoji) : Str :=
  ("<a:").toList ++ e.name ++ [':'] ++ e.id ++ ['>']

/-- First emoji of a list whose lowercased name equals the sequence
(the inner loop of the nitro branch). -/
def findEmojiByName (emojis : List Emoji) (seq : Str) : Option Emoji :=
  emojis.find? (fun e => e.name.map Char.toLower = seq)

/-- First matching emoji over all cached guilds in order
(the outer loop of the nitro branch of `replaceCustomEmojiSequences`). -/
def findAnyEmoji : List Guild → Str → Option Emoji
  | [], _ => none
  | g :: rest, seq =>
    match findEmojiByName g.emojis seq with
    | some e => some e
    | none => findAnyEmoji rest seq

/-- The match-replacement closure of the nitro branch of
`replaceCustomEmojiSequences` (window.go lines 1214-1230): the first
name match over all guilds wins, animated emojis yield `<a:...>`. -/
def emojiReplacementNitro (guilds : List Guild) (m : Str) : Str :=
  match findAnyEmoji guilds (matchSeq m) with
  | some e =>
    if e.animated then matchPre m ++ animatedEmojiRef e
    else matchPre m ++ plainEmojiRef e
  | none => m

/-- Loop of `findMatchInGuild` over a guild's emoji list (window.go lines
1260-1295).  An animated emoji is skipped.  A name match (case-insensitive,
subject to the `GW` name-prefix rule unless `omitGWCheck`) yields the plain
reference `<:name:id>`; in the source the role loop returns this same
reference and the code after it returns it unconditionally as well, so the
only way a role-gated emoji is skipped is when the local member is neither
cached nor fetchable (`selfMemberLookup` is `none`), in which case the Go
code hits `continue`. -/
def findMatchInGuildLoop (w : Window) (guildID : Str) (omitGWCheck : Bool)
    (emojiSequence : Str) : List Emoji → Str
  | [] => []
  | e :: rest =>
    if e.animated then
      findMatchInGuildLoop w guildID omitGWCheck emojiSequence rest
    else if e.name.map Char.toLower = emojiSequence ∧
        (omitGWCheck ∨ (("GW").toList).isPrefixOf e.name) then
      if e.roles ≠ [] ∧ (w.sessionState.selfMemberLookup guildID).isNone then
        findMatchInGuildLoop w guildID omitGWCheck emojiSequence rest
      else plainEmojiRef e
    else
      findMatchInGuildLoop w guildID omitGWCheck emojiSequence rest

/-- `findMatchInGuild` (window.go lines 1260-1295): the empty string means
no result was found. -/
def findMatchInGuild (w : Window) (guild : Guild) (omitGWCheck : Bool)
    (emojiSequence : Str) : Str :=
  findMatchInGuildLoop w guild.id omitGWCheck emojiSequence guild.emojis

/-- The global pass of the non-nitro branch: first guild with a
(`GW`-prefixed) match wins.  (The source binds the per-guild result to a
local `emojiResult` variable; the model repeats the pure call instead.) -/
def findGlobalMatch (w : Window) (emojiSequence : Str) : List Guild → Str
  | [] => []
  | g :: rest =>
    if findMatchInGuild w g false emojiSequence ≠ [] then
      findMatchInGuild w g false emojiSequence
    else findGlobalMatch w emojiSequence rest

/-- The match-replacement closure of the non-nitro branch of
`replaceCustomEmojiSequences` (window.go lines 1233-1254): local guild
emojis take priority, then the global pass over all cached guilds.  (The
source binds each search result to a local variable; the model repeats the
pure call instead.) -/
def emojiReplacementDefault (w : Window) : Option Guild → Str → Str
  | some cg, m =>
    if findMatchInGuild w cg true (matchSeq m) ≠ [] then
      matchPre m ++ findMatchInGuild w cg true (matchSeq m)
    else if findGlobalMatch w (matchSeq m) w.sessionState.guilds ≠ [] then
      matchPre m ++ findGlobalMatch w (matchSeq m) w.sessionState.guilds
    else m
  | none, m =>
    if findGlobalMatch w (matchSeq m) w.sessionState.guilds ≠ [] then
      matchPre m ++ findGlobalMatch w (matchSeq m) w.sessionState.guilds
    else m

/-- Does the local user have a premium (nitro) account
(the condition of window.go lines 1212-1213)? -/
def isNitroUser (w : Window) : Prop :=
  w.sessionState.user.premiumType = userPremiumTypeNitroClassic ∨
    w.sessionState.user.premiumType = userPremiumTypeNitro

instance (w : Window) : Decidable (isNitroUser w) := by
  unfold isNitroUser; infer_instance

/-- `replaceCustomEmojiSequences` (window.go lines 1210-1255).  For private
channels `channelGuild` is `none`. -/
def replaceCustomEmojiSequences (w : Window) (channelGuild : Option Guild)
    (message : Str) : Str :=
  if isNitroUser w then
    emojiRegexReplaceAll (emojiReplacementNitro w.sessionState.guilds) message
  else
    emojiRegexReplaceAll (emojiReplacementDefault w channelGuild) message

/-! ### Message preparation (`prepareMessage`, `TrySendMessage`,
window.go lines 971-1006 and 1157-1204) -/

/-- Split a string at the first occurrence of `pat`, returning the text
before it and the text after it. -/
def splitAtSub (pat : Str) : Str → Option (Str × Str)
  | [] => none
  | c :: rest =>
    if pat ≠ [] ∧ pat.isPrefixOf (c :: rest) then
      some ([], (c :: rest).drop pat.length)
    else
      match splitAtSub pat rest with
      | some (before, after) => some (c :: before, after)
      | none => none

/-- The backtick character (U+0060). -/
def backtickChar : Char := Char.ofNat 96

/-- A triple-backtick code fence. -/
def codeFence : Str := [backtickChar, backtickChar, backtickChar]

/-- Escape every colon of a string as the two characters backslash-colon. -/
def escapeColons (s : Str) : Str :=
  s.foldr (fun c acc => if c = ':' then '\\' :: ':' :: acc else c :: acc) []

/-- Modelled from the spec: the constant `codeBlockRegex` used in
`prepareMessage` is declared in another file of the `ui` package that is not
part of `src/`.  Per the spec, step (1) of the composition pipeline is to
"escape colons inside fenced code blocks so emoji substitution does not
corrupt code": each region delimited by a pair of triple-backtick fences has
its colons replaced by backslash-colon.  The fuel is the input length. -/
def escapeCodeBlocksLoop : Nat → Str → Str
  | 0, s => s
  | fuel + 1, s =>
    match splitAtSub codeFence s with
    | none => s
    | some (before, rest) =>
      match splitAtSub codeFence rest with
      | none => s
      | some (inner, after) =>
        before ++ codeFence ++ escapeColons inner ++ codeFence ++
          escapeCodeBlocksLoop fuel after

/-- Modelled from the spec: colon escaping inside fenced code blocks
(`codeBlockRegex.ReplaceAllStringFunc` in window.go line 1163). -/
def escapeColonsInCodeBlocks (s : Str) : Str :=
  escapeCodeBlocksLoop s.length s

/-- Replace `#channelName` by `<#channelID>` for every guild text channel
(the channel loop of `prepareMessage`, window.go lines 1176-1180). -/
def replaceChannelMentions (channels : List Channel) (message : Str) : Str :=
  channels.foldl
    (fun m ch =>
      if ch.type = channelTypeGuildText then
        goReplaceAll m ('#' :: ch.name) (("<#").toList ++ ch.id ++ ['>'])
      else m)
    message

/-- Replace `@username#discriminator` by `<@userID>` for one user
(used by both user-mention loops of `prepareMessage`). -/
def replaceUserMention (m : Str) (u : User) : Str :=
  goReplaceAll m ('@' :: u.username ++ '#' :: u.discriminator)
    (("<@").toList ++ u.id ++ ['>'])

/-- `prepareMessage` (window.go lines 1162-1204): escape colons in code
blocks, run the scripting hook, substitute standard emojis, then (for guild
channels whose guild is cached) canonicalise channel references and custom
emoji shortcodes, un-escape the protected colons, and canonicalise user
mentions (recipients for private channels, the guild member roster
otherwise). -/
def prepareMessage (w : Window) (targetChannel : Channel) (inputText : Str) : Str :=
  let message := escapeColonsInCodeBlocks inputText
  let message := w.jsOnMessageSend message
  let message := w.emojimapReplace message
  let message :=
    if targetChannel.guildID ≠ [] then
      match stateGuild w targetChannel.guildID with
      | some channelGuild =>
        let message := replaceChannelMentions channelGuild.channels message
        replaceCustomEmojiSequences w (some channelGuild) message
      | none => message
    else
      replaceCustomEmojiSequences w none message
  let message := goReplaceAll message ['\\', ':'] [':']
  if targetChannel.guildID = [] then
    targetChannel.recipients.foldl replaceUserMention message
  else
    match stateMembers w targetChannel.guildID with
    | some members =>
      members.foldl (fun m mem => replaceUserMention m mem.user) message
    | none => message

/-- The externally visible action `TrySendMessage` ends in.  Each constructor
records the one thing the corresponding return path of the Go code does. -/
inductive SendAction where
  /-- `targetChannel == nil`: plain return, nothing happens. -/
  | nothing : SendAction
  /-- Empty input while editing: `askForMessageDeletion` is invoked. -/
  | askDeletion (messageID : Str) : SendAction
  /-- Empty input, not editing: plain return. -/
  | returnOnly : SendAction
  /-- Whitespace-only input: the message input is cleared, nothing is sent. -/
  | clearInput : SendAction
  /-- Prepared text over 2000 bytes: the error dialog
  "Messages must be 2000 characters or less to send" is shown. -/
  | tooLongError : SendAction
  /-- An edit call `editMessage(channelID, messageID, content)`. -/
  | editCall (channelID messageID content : Str) : SendAction
  /-- A send call `sendMessage(channelID, content)`. -/
  | sendCall (channelID content : Str) : SendAction
deriving DecidableEq, Repr

/-- `TrySendMessage` (window.go lines 971-1006), as the action it performs. -/
def TrySendMessage (w : Window) (targetChannel : Option Channel)
    (message : Str) : SendAction :=
  match targetChannel with
  | none => SendAction.nothing
  | some tc =>
    if message.length = 0 then
      match w.editingMessageID with
      | some mid => SendAction.askDeletion mid
      | none => SendAction.returnOnly
    else
      let message := trimSpace message
      if message.length = 0 then SendAction.clearInput
      else
        let message := prepareMessage w tc message
        if 2000 < goLen message then SendAction.tooLongError
        else
          match w.editingMessageID with
          | some mid => SendAction.editCall tc.id mid message
          | none => SendAction.sendCall tc.id message

/-! ### Navigation: `SwitchToPreviousChannel` (window.go lines 2161-2204) -/

/-- How a call to `SwitchToPreviousChannel` ends. -/
inductive SwitchResult where
  /-- The guard fired (`previousChannel == nil || previousChannel ==
  selectedChannel`): plain `return nil`. -/
  | noop : SwitchResult
  /-- A field of a nil pointer was read: the Go runtime panics. -/
  | nilDeref : SwitchResult
  /-- A non-nil error was returned (its message text). -/
  | errorReturned (msg : Str) : SwitchResult
  /-- Successful switch to a private (DM / group DM) channel; the private
  list re-issues the channel selection. -/
  | switchedPrivate : SwitchResult
  /-- Successful switch to a guild text channel; guild and channel selection
  are re-issued through the user-driven selection path. -/
  | switchedGuild : SwitchResult
  /-- `default:` branch of the type switch: "Invalid channel type". -/
  | invalidType : SwitchResult
deriving DecidableEq, Repr

/-- `SwitchToPreviousChannel` (window.go lines 2161-2204), returning the
window state after the statements the function itself executes and how the
call ends.  The successful branches additionally re-issue the guild/channel
selection through `onGuildSelect`/`onChannelSelect` (UI callback wiring that
in turn runs `LoadChannel`); only the page switch and the node updates the
function performs directly are recorded here.  Note the two failure branches
that first set `window.previousChannel` (resp. `window.previousGuild`) to
nil and then read `.Name` of that very field while formatting the error:
these end in `nilDeref`. -/
def SwitchToPreviousChannel (w : Window) : Window × SwitchResult :=
  match w.previousChannel with
  | none => (w, SwitchResult.noop)
  | some prev =>
    if w.selectedChannel = some prev then (w, SwitchResult.noop)
    else
      match stateChannel w prev.id with
      | none =>
        -- window.previousChannel = nil; window.previousChannelNode = nil;
        -- return fmt.Errorf("Channel %s not found", window.previousChannel.Name)
        ({ w with previousChannel := none, previousChannelNode := none },
          SwitchResult.nilDeref)
      | some _ =>
        if prev.type = channelTypeDM ∨ prev.type = channelTypeGroupDM then
          ({ w with currentPage := privatePageName }, SwitchResult.switchedPrivate)
        else if prev.type = channelTypeGuildText then
          match w.previousGuild with
          | none =>
            -- window.previousGuild.ID is read on a nil previousGuild
            (w, SwitchResult.nilDeref)
          | some pg =>
            match stateGuild w pg.id with
            | none =>
              -- window.previousGuild = nil; window.previousGuildNode = nil;
              -- return fmt.Errorf("Unable to load guild: %s", window.previousGuild.Name)
              ({ w with previousGuild := none, previousGuildNode := none },
                SwitchResult.nilDeref)
            | some _ =>
              if ¬ w.hasReadMessagesPermission prev.id then
                (w, SwitchResult.errorReturned
                  (("No read permissions for channel: ").toList ++ prev.name))
              else
                ({ w with currentPage := guildPageName },
                  SwitchResult.switchedGuild)
        else (w, SwitchResult.invalidType)

/-! ### Navigation: the previous-selection bookkeeping of `LoadChannel`
(window.go lines 2259-2292) -/

/-- The navigation-state updates `LoadChannel` performs (window.go lines
2259-2292): seed or push the `previous*` snapshot, install the new selection
and, for private channels, clear the guild selection.  `currentTreeNode`
models `window.channelTree.GetCurrentNode()`.  The message loading, chat
view population, read-state update and colour changes of `LoadChannel` touch
no navigation state and are not part of this model. -/
def LoadChannelNav (w : Window) (channel : Channel)
    (currentTreeNode : Option Str) : Window :=
  let w :=
    match w.selectedChannel with
    | none =>
      { w with previousChannel := some channel,
               previousChannelNode := currentTreeNode }
    | some sel =>
      if channel ≠ sel then
        let w' := { w with previousChannel := some sel,
                           previousChannelNode := w.selectedChannelNode }
        if sel.guildID = channel.guildID then
          { w' with previousGuild := w.selectedGuild,
                    previousGuildNode := w.selectedGuildNode }
        else w'
      else w
  let w := { w with selectedChannel := some channel,
                    selectedChannelNode := currentTreeNode }
  if channel.guildID = [] then
    { w with selectedGuild := none, selectedGuildNode := none }
  else w

/-! ### The guild-remove worker (window.go lines 1690-1720) -/

/-- One iteration of the guild-remove worker goroutine of
`registerGuildHandlers` (window.go lines 1690-1720).  When no guild node is
currently selected the event is skipped (`continue`).  Otherwise a previous
guild node referencing the removed guild clears the whole `previous*`
snapshot, and if the removed guild is the selected one the chat (when it
belongs to that guild), the channel tree, the user list and the guild-list
entry are cleared together with the selection. -/
def guildRemoveWorker (w : Window) (removedID : Str) : Window :=
  match w.selectedGuildNode with
  | none => w
  | some selNode =>
    let w :=
      if w.previousGuildNode = some removedID then
        { w with previousGuildNode := none, previousGuild := none,
                 previousChannelNode := none, previousChannel := none }
      else w
    if selNode = removedID then
      let w :=
        match w.selectedChannel with
        | some sc =>
          if sc.guildID = removedID then
            { w with chatViewData := [], selectedChannel := none,
                     selectedChannelNode := none }
          else w
        | none => w
      { w with guildListNodes := w.guildListNodes.erase removedID,
               selectedGuildNode := none, selectedGuild := none }
    else w

/-! ### The message-create worker (window.go lines 1477-1592) -/

/-- The externally visible effects one iteration of the message-create
worker can request, in the order the code requests them. -/
inductive CreateEffect where
  /-- `readstate.UpdateReadBuffered(session, channel, message.ID)`. -/
  | updateReadBuffered (channelID messageID : Str) : CreateEffect
  /-- `window.chatView.AddMessage(message)` (ordered append). -/
  | appendToChat (messageID : Str) : CreateEffect
  /-- `window.updateServerReadStatus(channel.GuildID, guildNode, false)`. -/
  | updateServerReadStatus (guildID : Str) : CreateEffect
  /-- `window.privateList.ReorderChannelList()`. -/
  | reorderPrivateList : CreateEffect
  /-- `beeep.Notify(title, body, icon)`: a desktop notification. -/
  | notify (title : Str) : CreateEffect
  /-- `readstate.UpdateReadLocal(message.ChannelID, message.ID)`. -/
  | updateReadLocal (channelID messageID : Str) : CreateEffect
  /-- `window.privateList.MarkChannelAsUnread(channel)`. -/
  | markPrivateUnread (channelID : Str) : CreateEffect
  /-- `window.channelTree.MarkChannelAsMentioned(channel.ID)`. -/
  | markMentioned (channelID : Str) : CreateEffect
  /-- `window.channelTree.MarkChannelAsUnread(channel.ID)`. -/
  | markUnread (channelID : Str) : CreateEffect
deriving DecidableEq, Repr

/-- Comma-separated recipient user names (the index-driven loop of window.go
lines 1547-1554). -/
def recipientsJoin : List User → Str
  | [] => []
  | u :: rest =>
    rest.foldl (fun acc r => acc ++ (", ").toList ++ r.username) u.username

/-- The notification location string (window.go lines 1541-1564). -/
def notificationLocation (w : Window) (message : Msg) (channel : Channel) : Str :=
  if channel.type = channelTypeDM then message.author.username
  else if channel.type = channelTypeGroupDM then
    let loc := if channel.name = [] then recipientsJoin channel.recipients
               else channel.name
    message.author.username ++ (" - ").toList ++ loc
  else if channel.type = channelTypeGuildText then
    match stateGuild w message.guildID with
    | some guild =>
      guild.name ++ (" - ").toList ++ channel.name ++ (" - ").toList ++
        message.author.username
    | none => message.author.username ++ (" - ").toList ++ channel.name
  else []

/-- The in-channel effects of the create worker (window.go lines
1488-1498): when the affected channel is the open one, buffer a read-state
update for foreign authors and append the message to the chat view. -/
def openChannelEffects (w : Window) (message : Msg) (channel : Channel) :
    List CreateEffect :=
  match w.selectedChannel with
  | some sel =>
    if message.channelID = sel.id then
      (if message.author.id ≠ w.sessionState.user.id then
        [CreateEffect.updateReadBuffered channel.id message.id]
      else []) ++ [CreateEffect.appendToChat message.id]
    else []
  | none => []

/-- The guild-tree indicator update (window.go lines 1500-1510): for a guild
text channel whose guild is not the selected one and has a guild-list node. -/
def guildIndicatorEffects (w : Window) (channel : Channel) :
    List CreateEffect :=
  if channel.type = channelTypeGuildText ∧
      (w.selectedGuild.all (fun g => g.id ≠ channel.guildID)) ∧
      channel.guildID ∈ w.guildListNodes then
    [CreateEffect.updateServerReadStatus channel.guildID]
  else []

/-- The private-list reorder (window.go lines 1517-1527). -/
def reorderEffects (channel : Channel) : List CreateEffect :=
  if channel.type = channelTypeDM ∨ channel.type = channelTypeGroupDM then
    [CreateEffect.reorderPrivateList]
  else []

/-- The desktop-notification decision (window.go lines 1536-1570): fire only
when the user is inactive, notifications are enabled, and the message
mentions the local user or arrived in a DM / group DM. -/
def notificationEffects (w : Window) (message : Msg) (channel : Channel) :
    List CreateEffect :=
  if ¬ w.userActive ∧ w.config.desktopNotifications ∧
      (w.mentionsCurrentUserExplicitly message ∨
        channel.type = channelTypeDM ∨ channel.type = channelTypeGroupDM) then
    [CreateEffect.notify (("Cordless - ").toList ++
      notificationLocation w message channel)]
  else []

/-- The unread / mention markers (window.go lines 1573-1589). -/
def unreadMarkerEffects (w : Window) (message : Msg) (channel : Channel) :
    List CreateEffect :=
  if channel.type = channelTypeDM ∨ channel.type = channelTypeGroupDM then
    if ¬ w.isChannelMuted channel then
      [CreateEffect.markPrivateUnread channel.id]
    else []
  else if channel.type = channelTypeGuildText then
    if w.mentionsCurrentUserExplicitly message then
      [CreateEffect.markMentioned channel.id]
    else if ¬ w.isChannelMuted channel then
      [CreateEffect.markUnread channel.id]
    else []
  else []

/-- The whole closed-channel block (window.go lines 1534-1590), guarded by
the channel not being the open one. -/
def closedChannelEffects (w : Window) (message : Msg) (channel : Channel) :
    List CreateEffect :=
  if w.selectedChannel.all (fun sel => message.channelID ≠ sel.id) then
    notificationEffects w message channel ++ unreadMarkerEffects w message channel
  else []

/-- One iteration of the message-create worker goroutine of
`startMessageHandlerRoutines` (window.go lines 1478-1592): look the channel
up in the cache (a miss drops the event), request the in-channel effects
when the channel is open, update the guild-tree indicator otherwise, patch
the `LastMessageID` of the cached channel (line 1515), reorder the private list
for DMs, and for messages authored by the local user just update the local read
state, otherwise decide on the desktop notification and unread/mention
markers.  The blocks after line 1515 see the patched channel value.
`session.State.MessageAdd` (a merge inside the discordgo library) mutates no
field modelled here. -/
def messageCreateWorker (w : Window) (message : Msg) :
    Window × List CreateEffect :=
  match stateChannel w message.channelID with
  | none => (w, [])
  | some channel =>
    let w2 := { w with sessionState := { w.sessionState with
      channels := w.sessionState.channels.map (fun c =>
        if c.id = channel.id then { c with lastMessageID := message.id }
        else c) } }
    let channel2 := { channel with lastMessageID := message.id }
    if message.author.id = w.sessionState.user.id then
      (w2, openChannelEffects w message channel ++
        guildIndicatorEffects w channel ++ reorderEffects channel2 ++
        [CreateEffect.updateReadLocal message.channelID message.id])
    else
      (w2, openChannelEffects w message channel ++
        guildIndicatorEffects w channel ++ reorderEffects channel2 ++
        closedChannelEffects w message channel2)

/-! ### The message-edit pipeline (window.go lines 1457-1462 and 1628-1651) -/

/-- The field merge the edit worker performs on the matching cached row
(window.go lines 1637-1640). -/
def patchEditedMessage (edited m : Msg) : Msg :=
  { m with content := edited.content, mentions := edited.mentions,
           mentionRoles := edited.mentionRoles,
           mentionEveryone := edited.mentionEveryone }

/-- The row loop of the edit worker (window.go lines 1634-1647): patch the
first row whose id matches and stop (`break`); return the new rows and the
row handed to `chatView.UpdateMessage`, if any. -/
def updateChatRows (edited : Msg) : List Msg → List Msg × Option Msg
  | [] => ([], none)
  | m :: rest =>
    if m.id = edited.id then
      (patchEditedMessage edited m :: rest, some (patchEditedMessage edited m))
    else
      let r := updateChatRows edited rest
      (m :: r.1, r.2)

/-- One iteration of the message-edit worker goroutine (window.go lines
1628-1651).  `session.State.MessageAdd` (library merge) mutates no field
modelled here; when the edited message's channel is the open one the first
matching chat-view row is patched and a UI update of exactly that row is
requested (the `Option Msg` component). -/
def messageEditWorker (w : Window) (edited : Msg) : Window × Option Msg :=
  match w.selectedChannel with
  | some sel =>
    if sel.id = edited.channelID then
      let r := updateChatRows edited w.chatViewData
      ({ w with chatViewData := r.1 }, r.2)
    else (w, none)
  | none => (w, none)

/-- The full path of a message-update event: the registration handler
(window.go lines 1457-1462) drops edits that carry no content ("just-embed
edits") before anything is enqueued; everything else reaches the edit
worker. -/
def messageUpdateEvent (w : Window) (edited : Msg) : Window × Option Msg :=
  if edited.content = [] then (w, none)
  else messageEditWorker w edited

/-! ### Helper lemmas about the string models -/

theorem colonTail_eq_none {s : Str} (h : ':' ∉ s) : colonTail s = none := by
  cases s with
  | nil => rfl
  | cons c rest =>
    have hc : ¬ (c = ':') := fun e => h (e ▸ List.mem_cons_self c rest)
    simp only [colonTail, if_neg hc]

theorem tryMatchTail_eq_none (c : Char) {rest : Str} (h : ':' ∉ rest) :
    tryMatchTail c rest = none := by
  unfold tryMatchTail
  rw [colonTail_eq_none h]
  split <;> rfl

theorem tryMatchAt_eq_none {s : Str} (atStart : Bool) (h : ':' ∉ s) :
    tryMatchAt atStart s = none := by
  have hct : colonTail s = none := colonTail_eq_none h
  cases s with
  | nil => cases atStart <;> rfl
  | cons c1 t =>
    have h1 : ':' ∉ t := fun hm => h (List.mem_cons_of_mem c1 hm)
    have htt : tryMatchTail c1 t = none := tryMatchTail_eq_none c1 h1
    cases t with
    | nil =>
      unfold tryMatchAt
      cases atStart <;> simp [hct, htt]
    | cons c2 rest =>
      have h2 : ':' ∉ rest := fun hm => h1 (List.mem_cons_of_mem c2 hm)
      have htt2 : tryMatchTail c2 rest = none := tryMatchTail_eq_none c2 h2
      unfold tryMatchAt
      cases atStart <;> simp [hct, htt, htt2]

theorem emojiRegexReplaceLoop_no_colon (repl : Str → Str) :
    ∀ (fuel : Nat) (atStart : Bool) (s : Str), ':' ∉ s →
      emojiRegexReplaceLoop repl fuel atStart s = s := by
  intro fuel
  induction fuel with
  | zero => intro _ s _; rfl
  | succ n ih =>
    intro atStart s h
    unfold emojiRegexReplaceLoop
    rw [tryMatchAt_eq_none atStart h]
    cases s with
    | nil => rfl
    | cons c rest =>
      simp only [List.cons.injEq, true_and]
      exact ih false rest (fun hm => h (List.mem_cons_of_mem c hm))

theorem emojiRegexReplaceAll_no_colon (repl : Str → Str) (s : Str)
    (h : ':' ∉ s) : emojiRegexReplaceAll repl s = s :=
  emojiRegexReplaceLoop_no_colon repl s.length true s h

theorem goReplaceAllLoop_not_mem {old : Str} {c0 : Char}
    (hold : old.head? = some c0) (new : Str) :
    ∀ (fuel : Nat) (s : Str), c0 ∉ s → goReplaceAllLoop old new fuel s = s := by
  intro fuel
  induction fuel with
  | zero => intro s _; rfl
  | succ n ih =>
    intro s h
    cases s with
    | nil => rfl
    | cons c rest =>
      unfold goReplaceAllLoop
      rw [if_neg]
      · simp only [List.cons.injEq, true_and]
        exact ih rest (fun hm => h (List.mem_cons_of_mem c hm))
      · rintro ⟨hne, hpre⟩
        cases old with
        | nil => exact hne rfl
        | cons o orest =>
          simp only [List.head?_cons, Option.some.injEq] at hold
          simp only [List.isPrefixOf, Bool.and_eq_true, beq_iff_eq] at hpre
          exact h (hold ▸ hpre.1 ▸ List.mem_cons_self c rest)

theorem goReplaceAll_not_mem {old : Str} {c0 : Char} (s new : Str)
    (hold : old.head? = some c0) (h : c0 ∉ s) : goReplaceAll s old new = s :=
  goReplaceAllLoop_not_mem hold new s.length s h

theorem splitAtSub_eq_none {pat : Str} {c0 : Char}
    (hpat : pat.head? = some c0) :
    ∀ (s : Str), c0 ∉ s → splitAtSub pat s = none := by
  intro s
  induction s with
  | nil => intro _; rfl
  | cons c rest ih =>
    intro h
    unfold splitAtSub
    rw [if_neg, ih (fun hm => h (List.mem_cons_of_mem c hm))]
    rintro ⟨hne, hpre⟩
    cases pat with
    | nil => exact hne rfl
    | cons p prest =>
      simp only [List.head?_cons, Option.some.injEq] at hpat
      simp only [List.isPrefixOf, Bool.and_eq_true, beq_iff_eq] at hpre
      exact h (hpat ▸ hpre.1 ▸ List.mem_cons_self c rest)

theorem escapeColonsInCodeBlocks_no_tick {s : Str} (h : backtickChar ∉ s) :
    escapeColonsInCodeBlocks s = s := by
  have hsplit : splitAtSub codeFence s = none :=
    splitAtSub_eq_none (by rfl) s h
  unfold escapeColonsInCodeBlocks
  cases hl : s.length with
  | zero => rfl
  | succ n =>
    unfold escapeCodeBlocksLoop
    rw [hsplit]

theorem dropWhile_eq_self_of_all {p : Char → Bool} {s : Str}
    (h : ∀ c ∈ s, p c = false) : s.dropWhile p = s := by
  cases s with
  | nil => rfl
  | cons c rest =>
    rw [List.dropWhile_cons, if_neg]
    simp [h c (List.mem_cons_self c rest)]

theorem trimSpace_eq_self {s : Str} (h : ∀ c ∈ s, c.isWhitespace = false) :
    trimSpace s = s := by
  unfold trimSpace
  rw [dropWhile_eq_self_of_all h, dropWhile_eq_self_of_all, List.reverse_reverse]
  intro c hc
  exact h c (List.mem_reverse.mp hc)

theorem trimSpace_eq_nil {s : Str} (h : ∀ c ∈ s, c.isWhitespace = true) :
    trimSpace s = [] := by
  unfold trimSpace
  have h1 : s.dropWhile Char.isWhitespace = [] :=
    List.dropWhile_eq_nil_iff.mpr h
  rw [h1]
  rfl

theorem goLen_replicate (n : Nat) (c : Char) :
    goLen (List.replicate n c) = n * c.utf8Size := by
  simp [goLen, List.map_replicate, List.sum_replicate, smul_eq_mul]

/-! ### Concrete sample states used by witnesses and counterexamples -/

/-- A local user without a premium account. -/
def sampleUser : User :=
  { id := ("u1").toList, username := ("alice").toList,
    discriminator := ("0001").toList, premiumType := 0 }

/-- A direct-message channel with no recipients. -/
def dmChannel : Channel :=
  { id := ("dm1").toList, guildID := [], name := [], type := channelTypeDM,
    lastMessageID := [], recipients := [] }

/-- A window with an empty cache, no selection and identity collaborators. -/
def baseWindow : Window :=
  { sessionState :=
      { user := sampleUser, guilds := [], channels := [],
        selfMemberLookup := fun _ => none },
    config := { desktopNotifications := true },
    editingMessageID := none, selectedGuild := none, selectedGuildNode := none,
    previousGuild := none, previousGuildNode := none, selectedChannel := none,
    selectedChannelNode := none, previousChannel := none,
    previousChannelNode := none, currentPage := guildPageName,
    guildListNodes := [], chatViewData := [], userActive := false,
    jsOnMessageSend := id, emojimapReplace := id,
    hasReadMessagesPermission := fun _ => true,
    mentionsCurrentUserExplicitly := fun _ => false,
    isChannelMuted := fun _ => false }

/-- A window whose scripting hook blows every message up to 2001 bytes. -/
def inflateWindow : Window :=
  { baseWindow with jsOnMessageSend := fun _ => List.replicate 2001 'a' }

theorem prepareMessage_inflate_eval :
    prepareMessage inflateWindow dmChannel (trimSpace [' ']) =
      List.replicate 2001 'a' := by
  have htrim : trimSpace [' '] = ([] : Str) := by decide
  have hcolon : ':' ∉ List.replicate 2001 'a' :=
    fun hm => absurd (List.eq_of_mem_replicate hm) (by decide)
  have e2 : inflateWindow.jsOnMessageSend (escapeColonsInCodeBlocks []) =
      List.replicate 2001 'a' := rfl
  have e3 : inflateWindow.emojimapReplace (List.replicate 2001 'a') =
      List.replicate 2001 'a' := rfl
  have e4 : replaceCustomEmojiSequences inflateWindow none
      (List.replicate 2001 'a') = List.replicate 2001 'a' := by
    unfold replaceCustomEmojiSequences
    rw [if_neg (show ¬ isNitroUser inflateWindow by decide)]
    exact emojiRegexReplaceAll_no_colon _ _ hcolon
  have e5 : goReplaceAll (List.replicate 2001 'a') ['\\', ':'] [':'] =
      List.replicate 2001 'a' :=
    goReplaceAll_not_mem _ _ rfl
      (fun hm => absurd (List.eq_of_mem_replicate hm) (by decide))
  have eg : dmChannel.guildID = ([] : Str) := rfl
  have er : dmChannel.recipients = [] := rfl
  rw [htrim]
  unfold prepareMessage
  simp only [eg, er, e2, e3, e4, e5, ne_eq, eq_self_iff_true, not_true_eq_false,
    if_true, if_false, ite_true, ite_false, List.foldl_nil]

theorem prepareMessage_base_eval :
    prepareMessage baseWindow dmChannel (List.replicate 2001 'a') =
      List.replicate 2001 'a' := by
  have hmem : ∀ c ∈ List.replicate 2001 'a', c = 'a' :=
    fun c hc => List.eq_of_mem_replicate hc
  have hcolon : ':' ∉ List.replicate 2001 'a' :=
    fun hm => absurd (hmem _ hm) (by decide)
  have e1 : escapeColonsInCodeBlocks (List.replicate 2001 'a') =
      List.replicate 2001 'a' :=
    escapeColonsInCodeBlocks_no_tick (fun hm => absurd (hmem _ hm) (by decide))
  have e4 : replaceCustomEmojiSequences baseWindow none
      (List.replicate 2001 'a') = List.replicate 2001 'a' := by
    unfold replaceCustomEmojiSequences
    rw [if_neg (show ¬ isNitroUser baseWindow by decide)]
    exact emojiRegexReplaceAll_no_colon _ _ hcolon
  have e5 : goReplaceAll (List.replicate 2001 'a') ['\\', ':'] [':'] =
      List.replicate 2001 'a' :=
    goReplaceAll_not_mem _ _ rfl (fun hm => absurd (hmem _ hm) (by decide))
  have e2 : baseWindow.jsOnMessageSend (List.replicate 2001 'a') =
      List.replicate 2001 'a' := rfl
  have e3 : baseWindow.emojimapReplace (List.replicate 2001 'a') =
      List.replicate 2001 'a' := rfl
  have eg : dmChannel.guildID = ([] : Str) := rfl
  have er : dmChannel.recipients = [] := rfl
  unfold prepareMessage
  simp only [eg, er, e1, e2, e3, e4, e5, ne_eq, eq_self_iff_true,
    not_true_eq_false, if_true, if_false, ite_true, ite_false, List.foldl_nil]

/-! ### Claim C10 -/

/-- C10: for every non-nil target channel and every input that is non-empty
but all whitespace, `TrySendMessage` only clears the message input: no
network send, no error dialog, and the composition pipeline is never
reached (the conclusion holds for every window, in particular for every
behaviour of `prepareMessage`'s collaborators). -/
theorem trySendMessage_whitespace_clears_input (w : Window) (ch : Channel)
    (msg : Str) (hne : msg ≠ [])
    (hws : ∀ c ∈ msg, c.isWhitespace = true) :
    TrySendMessage w (some ch) msg = SendAction.clearInput := by
  have h1 : ¬ (msg.length = 0) := by simpa [List.length_eq_zero] using hne
  have h2 : trimSpace msg = [] := trimSpace_eq_nil hws
  unfold TrySendMessage
  simp [h1, h2]

/-- Witness for C10 at the concrete input `" "`. -/
theorem trySendMessage_whitespace_clears_input_witness :
    ([' '] : Str) ≠ [] ∧ (∀ c ∈ ([' '] : Str), c.isWhitespace = true) ∧
    TrySendMessage baseWindow (some dmChannel) [' '] = SendAction.clearInput :=
  ⟨by decide, by decide,
    trySendMessage_whitespace_clears_input baseWindow dmChannel [' ']
      (by decide) (by decide)⟩

/-! ### Claim C1 -/

/-- C1, counterexample to the claim as stated: with a whitespace-only raw
input and a scripting hook that inflates the (empty) trimmed input beyond
2000 bytes, the prepared wire text of the trimmed input exceeds the limit,
yet `TrySendMessage` shows no error dialog — it only clears the input. -/
theorem trySendMessage_oversize_counterexample :
    2000 < goLen (prepareMessage inflateWindow dmChannel (trimSpace [' '])) ∧
    TrySendMessage inflateWindow (some dmChannel) [' '] =
      SendAction.clearInput := by
  constructor
  · rw [prepareMessage_inflate_eval, goLen_replicate]
    decide
  · decide

/-- C1, amended: for every target channel and every raw input that still
contains a non-whitespace character after trimming, if the prepared wire
text of the trimmed input is longer than 2000 bytes then `TrySendMessage`
shows the error dialog and performs no send and no edit call (and never
truncates). -/
theorem trySendMessage_oversize_rejects (w : Window) (ch : Channel)
    (msg : Str) (htrim : trimSpace msg ≠ [])
    (hlen : 2000 < goLen (prepareMessage w ch (trimSpace msg))) :
    TrySendMessage w (some ch) msg = SendAction.tooLongError := by
  have hne : msg ≠ [] := by
    intro e
    exact htrim (by rw [e]; rfl)
  have h1 : ¬ (msg.length = 0) := by simpa [List.length_eq_zero] using hne
  have h2 : ¬ ((trimSpace msg).length = 0) := by
    simpa [List.length_eq_zero] using htrim
  unfold TrySendMessage
  simp [h1, h2, hlen]

/-- Witness for the amended C1 at a 2001-byte input. -/
theorem trySendMessage_oversize_rejects_witness :
    trimSpace (List.replicate 2001 'a') ≠ [] ∧
    2000 < goLen (prepareMessage baseWindow dmChannel
      (trimSpace (List.replicate 2001 'a'))) ∧
    TrySendMessage baseWindow (some dmChannel) (List.replicate 2001 'a') =
      SendAction.tooLongError := by
  have htr : trimSpace (List.replicate 2001 'a') = List.replicate 2001 'a' :=
    trimSpace_eq_self
      (fun c hc => by rw [List.eq_of_mem_replicate hc]; decide)
  have hne : trimSpace (List.replicate 2001 'a') ≠ [] := by
    rw [htr]
    intro e
    have h2 : (List.replicate 2001 'a').length = 0 := by rw [e]; rfl
    rw [List.length_replicate] at h2
    exact absurd h2 (by norm_num)
  have hlen : 2000 < goLen (prepareMessage baseWindow dmChannel
      (trimSpace (List.replicate 2001 'a'))) := by
    rw [htr, prepareMessage_base_eval, goLen_replicate]
    decide
  exact ⟨hne, hlen,
    trySendMessage_oversize_rejects baseWindow dmChannel _ hne hlen⟩

/-! ### Claim C3 -/

/-- C3: whenever `previousChannel` is nil or equals `selectedChannel`,
`SwitchToPreviousChannel` is a no-op returning no error and changing no
state; in particular a second call on the resulting state is again the same
no-op, so two calls in a row produce no navigation change. -/
theorem switchToPreviousChannel_noop (w : Window)
    (h : w.previousChannel = none ∨ w.previousChannel = w.selectedChannel) :
    SwitchToPreviousChannel w = (w, SwitchResult.noop) ∧
    SwitchToPreviousChannel (SwitchToPreviousChannel w).1 =
      (w, SwitchResult.noop) := by
  have h1 : SwitchToPreviousChannel w = (w, SwitchResult.noop) := by
    unfold SwitchToPreviousChannel
    rcases h with h | h
    · rw [h]
    · cases hp : w.previousChannel with
      | none => rfl
      | some prev =>
        rw [hp] at h
        simp only [if_pos h.symm]
  exact ⟨h1, by rw [h1]; exact h1⟩

/-- A window in which the previous channel equals the selected channel. -/
def samePrevWindow : Window :=
  { baseWindow with selectedChannel := some dmChannel,
                    previousChannel := some dmChannel }

/-- Witness for C3 at a state with `previous == current`. -/
theorem switchToPreviousChannel_noop_witness :
    (samePrevWindow.previousChannel = none ∨
      samePrevWindow.previousChannel = samePrevWindow.selectedChannel) ∧
    SwitchToPreviousChannel samePrevWindow = (samePrevWindow, SwitchResult.noop) ∧
    SwitchToPreviousChannel (SwitchToPreviousChannel samePrevWindow).1 =
      (samePrevWindow, SwitchResult.noop) :=
  ⟨Or.inr rfl,
    (switchToPreviousChannel_noop samePrevWindow (Or.inr rfl)).1,
    (switchToPreviousChannel_noop samePrevWindow (Or.inr rfl)).2⟩

/-! ### Claim C2 -/

/-- A stale previous channel whose id is in no cache. -/
def staleChannel : Channel :=
  { id := ("c-stale").toList, guildID := [], name := ("old-dm").toList,
    type := channelTypeDM, lastMessageID := [], recipients := [] }

/-- A window whose previous channel no longer exists in the cache. -/
def staleWindow : Window :=
  { baseWindow with previousChannel := some staleChannel,
                    previousChannelNode := some (("node-stale").toList) }

/-- C2: at a state whose previous channel is missing from the cache,
`SwitchToPreviousChannel` does clear the stale `previousChannel` and
`previousChannelNode`, but it then reads `window.previousChannel.Name` of
the field it has just set to nil while formatting the "Channel %s not
found" error, so the call ends in a nil-pointer dereference (a runtime
panic) instead of returning the descriptive error the claim describes. -/
theorem switchToPreviousChannel_nil_deref :
    (SwitchToPreviousChannel staleWindow).2 = SwitchResult.nilDeref ∧
    (SwitchToPreviousChannel staleWindow).1.previousChannel = none ∧
    (SwitchToPreviousChannel staleWindow).1.previousChannelNode = none := by
  refine ⟨?_, ?_, ?_⟩ <;> decide

/-! ### Claim C5 -/

/-- C5: the previous-selection bookkeeping of `LoadChannel`.  With no
current selection the `previous*` snapshot is seeded with the new channel
itself; selecting a different channel pushes the old selection into
`previous*`; re-selecting the already selected channel leaves the whole
`previous*` snapshot unchanged. -/
theorem loadChannelNav_previous_tracking (w : Window) (c : Channel)
    (n : Option Str) :
    (w.selectedChannel = none →
      (LoadChannelNav w c n).previousChannel = some c ∧
      (LoadChannelNav w c n).previousChannelNode = n) ∧
    (∀ sel, w.selectedChannel = some sel → sel ≠ c →
      (LoadChannelNav w c n).previousChannel = some sel ∧
      (LoadChannelNav w c n).previousChannelNode = w.selectedChannelNode) ∧
    (w.selectedChannel = some c →
      (LoadChannelNav w c n).previousChannel = w.previousChannel ∧
      (LoadChannelNav w c n).previousChannelNode = w.previousChannelNode ∧
      (LoadChannelNav w c n).previousGuild = w.previousGuild ∧
      (LoadChannelNav w c n).previousGuildNode = w.previousGuildNode) := by
  refine ⟨?_, ?_, ?_⟩
  · intro h
    unfold LoadChannelNav
    rw [h]
    by_cases hg : c.guildID = [] <;> simp [hg]
  · intro sel hsel hne
    unfold LoadChannelNav
    simp only [hsel]
    rw [if_pos (Ne.symm hne)]
    by_cases hsg : sel.guildID = c.guildID
    · rw [if_pos hsg]
      simp [apply_ite]
    · rw [if_neg hsg]
      simp [apply_ite]
  · intro h
    unfold LoadChannelNav
    simp only [h]
    rw [if_neg (show ¬ (c ≠ c) from fun hcc => hcc rfl)]
    simp [apply_ite]

/-- A guild text channel of guild `g1`. -/
def g1Channel : Channel :=
  { id := ("c1").toList, guildID := ("g1").toList,
    name := ("general").toList, type := channelTypeGuildText,
    lastMessageID := [], recipients := [] }

/-- A window with a selected guild channel and an older previous snapshot. -/
def selectedWindow : Window :=
  { baseWindow with selectedChannel := some g1Channel,
                    selectedChannelNode := some (("node-c1").toList),
                    previousChannel := some staleChannel,
                    previousChannelNode := some (("node-stale").toList) }

/-- Witness for C5: all three transition rules at concrete states. -/
theorem loadChannelNav_previous_tracking_witness :
    ((LoadChannelNav baseWindow g1Channel (some (("node-c1").toList))).previousChannel =
        some g1Channel ∧
      (LoadChannelNav baseWindow g1Channel (some (("node-c1").toList))).previousChannelNode =
        some (("node-c1").toList)) ∧
    ((LoadChannelNav selectedWindow dmChannel none).previousChannel = some g1Channel ∧
      (LoadChannelNav selectedWindow dmChannel none).previousChannelNode =
        some (("node-c1").toList)) ∧
    ((LoadChannelNav selectedWindow g1Channel none).previousChannel =
        selectedWindow.previousChannel ∧
      (LoadChannelNav selectedWindow g1Channel none).previousChannelNode =
        selectedWindow.previousChannelNode ∧
      (LoadChannelNav selectedWindow g1Channel none).previousGuild =
        selectedWindow.previousGuild ∧
      (LoadChannelNav selectedWindow g1Channel none).previousGuildNode =
        selectedWindow.previousGuildNode) :=
  ⟨(loadChannelNav_previous_tracking baseWindow g1Channel
      (some (("node-c1").toList))).1 rfl,
    (loadChannelNav_previous_tracking selectedWindow dmChannel none).2.1
      g1Channel rfl (by decide),
    (loadChannelNav_previous_tracking selectedWindow g1Channel none).2.2 rfl⟩

/-! ### Claim C4 -/

/-- A sample guild. -/
def g1 : Guild :=
  { id := ("g1").toList, name := ("Guild One").toList, channels := [g1Channel],
    members := [], emojis := [] }

/-- A window whose previous snapshot points at guild `g1` while no guild is
currently selected (e.g. after switching from a guild channel to a DM,
which clears `selectedGuild`/`selectedGuildNode`). -/
def orphanPrevWindow : Window :=
  { baseWindow with previousGuild := some g1,
                    previousGuildNode := some (("g1").toList),
                    previousChannel := some g1Channel,
                    previousChannelNode := some (("node-c1").toList),
                    selectedChannel := some dmChannel }

/-- C4, counterexample to the claim as stated: a guild-remove event for the
guild referenced by the previous navigation state arrives while no guild
node is selected; the worker skips the event entirely (`continue`), so the
previous references at the removed guild are NOT cleared. -/
theorem guildRemoveWorker_skip_counterexample :
    guildRemoveWorker orphanPrevWindow (("g1").toList) = orphanPrevWindow ∧
    orphanPrevWindow.previousGuildNode = some (("g1").toList) ∧
    orphanPrevWindow.previousGuild = some g1 := by
  refine ⟨rfl, rfl, rfl⟩

/-- C4, amended: the clearing behaviour holds provided a guild node is
currently selected (`selectedGuildNode ≠ nil`); then a guild-remove event
whose id is referenced by the previous guild node clears the whole
`previous*` snapshot, and if the removed guild is the selected one the
selection is cleared and, when the open channel belongs to that guild, the
chat view and channel selection are cleared as well. -/
theorem guildRemoveWorker_clears_when_selected (w : Window) (removedID : Str)
    (sel : Str) (hsel : w.selectedGuildNode = some sel) :
    (w.previousGuildNode = some removedID →
      (guildRemoveWorker w removedID).previousGuild = none ∧
      (guildRemoveWorker w removedID).previousGuildNode = none ∧
      (guildRemoveWorker w removedID).previousChannel = none ∧
      (guildRemoveWorker w removedID).previousChannelNode = none) ∧
    (sel = removedID →
      (guildRemoveWorker w removedID).selectedGuild = none ∧
      (guildRemoveWorker w removedID).selectedGuildNode = none ∧
      (∀ sc, w.selectedChannel = some sc → sc.guildID = removedID →
        (guildRemoveWorker w removedID).selectedChannel = none ∧
        (guildRemoveWorker w removedID).selectedChannelNode = none ∧
        (guildRemoveWorker w removedID).chatViewData = [])) := by
  unfold guildRemoveWorker
  simp only [hsel]
  constructor
  · intro hprev
    rw [if_pos hprev]
    by_cases hs : sel = removedID
    · rw [if_pos hs]
      cases hsc : w.selectedChannel with
      | none => simp
      | some sc =>
        by_cases hg : sc.guildID = removedID <;> simp [hg]
    · rw [if_neg hs]
      simp
  · intro hs
    rw [if_pos hs]
    by_cases hprev : w.previousGuildNode = some removedID
    · rw [if_pos hprev]
      cases hsc : w.selectedChannel with
      | none =>
        refine ⟨by simp, by simp, ?_⟩
        intro sc hsc2 _
        exact absurd hsc2 (by simp)
      | some sc =>
        by_cases hg : sc.guildID = removedID
        · refine ⟨by simp [hg], by simp [hg], ?_⟩
          intro sc2 hsc2 _
          cases hsc2
          simp [hg]
        · refine ⟨by simp [hg], by simp [hg], ?_⟩
          intro sc2 hsc2 hg2
          cases hsc2
          exact absurd hg2 hg
    · rw [if_neg hprev]
      cases hsc : w.selectedChannel with
      | none =>
        refine ⟨by simp, by simp, ?_⟩
        intro sc hsc2 _
        exact absurd hsc2 (by simp)
      | some sc =>
        by_cases hg : sc.guildID = removedID
        · refine ⟨by simp [hg], by simp [hg], ?_⟩
          intro sc2 hsc2 _
          cases hsc2
          simp [hg]
        · refine ⟨by simp [hg], by simp [hg], ?_⟩
          intro sc2 hsc2 hg2
          cases hsc2
          exact absurd hg2 hg

/-- A window in which guild `g1` is selected (node and guild), the previous
snapshot also points at `g1`, and a `g1` channel is open. -/
def selectedG1Window : Window :=
  { baseWindow with selectedGuild := some g1,
                    selectedGuildNode := some (("g1").toList),
                    previousGuild := some g1,
                    previousGuildNode := some (("g1").toList),
                    selectedChannel := some g1Channel,
                    selectedChannelNode := some (("node-c1").toList),
                    guildListNodes := [("g1").toList] }

/-- Witness for the amended C4 at a fully concrete removal event. -/
theorem guildRemoveWorker_clears_when_selected_witness :
    ((guildRemoveWorker selectedG1Window (("g1").toList)).previousGuild = none ∧
      (guildRemoveWorker selectedG1Window (("g1").toList)).previousGuildNode = none ∧
      (guildRemoveWorker selectedG1Window (("g1").toList)).previousChannel = none ∧
      (guildRemoveWorker selectedG1Window (("g1").toList)).previousChannelNode = none) ∧
    ((guildRemoveWorker selectedG1Window (("g1").toList)).selectedGuild = none ∧
      (guildRemoveWorker selectedG1Window (("g1").toList)).selectedGuildNode = none ∧
      (guildRemoveWorker selectedG1Window (("g1").toList)).selectedChannel = none ∧
      (guildRemoveWorker selectedG1Window (("g1").toList)).selectedChannelNode = none ∧
      (guildRemoveWorker selectedG1Window (("g1").toList)).chatViewData = []) := by
  have h := guildRemoveWorker_clears_when_selected selectedG1Window
    (("g1").toList) (("g1").toList) rfl
  have h1 := h.1 rfl
  have h2 := h.2 rfl
  have h3 := h2.2.2 g1Channel rfl rfl
  exact ⟨⟨h1.1, h1.2.1, h1.2.2.1, h1.2.2.2⟩,
    ⟨h2.1, h2.2.1, h3.1, h3.2.1, h3.2.2⟩⟩



/-! ### Claim C6 -/

theorem notify_not_mem_openChannelEffects (w : Window) (message : Msg)
    (channel : Channel) (t : Str) :
    CreateEffect.notify t ∉ openChannelEffects w message channel := by
  unfold openChannelEffects
  split
  · split
    · intro h
      simp only [List.mem_append] at h
      rcases h with h | h
      · split at h <;> simp_all
      · simp at h
    · simp
  · simp

theorem notify_not_mem_guildIndicatorEffects (w : Window) (channel : Channel)
    (t : Str) : CreateEffect.notify t ∉ guildIndicatorEffects w channel := by
  unfold guildIndicatorEffects
  split <;> simp

theorem notify_not_mem_reorderEffects (channel : Channel) (t : Str) :
    CreateEffect.notify t ∉ reorderEffects channel := by
  unfold reorderEffects
  split <;> simp

theorem notify_not_mem_unreadMarkerEffects (w : Window) (message : Msg)
    (channel : Channel) (t : Str) :
    CreateEffect.notify t ∉ unreadMarkerEffects w message channel := by
  unfold unreadMarkerEffects
  split
  · split <;> simp
  · split
    · split
      · simp
      · split <;> simp
    · simp

theorem notify_mem_notificationEffects (w : Window) (message : Msg)
    (channel : Channel) (t : Str)
    (h : CreateEffect.notify t ∈ notificationEffects w message channel) :
    w.userActive = false ∧
      (w.mentionsCurrentUserExplicitly message = true ∨
        channel.type = channelTypeDM ∨ channel.type = channelTypeGroupDM) := by
  unfold notificationEffects at h
  split at h
  · rename_i hguard
    exact ⟨by simpa using hguard.1, hguard.2.2⟩
  · simp at h

theorem notify_mem_closedChannelEffects (w : Window) (message : Msg)
    (channel : Channel) (t : Str)
    (h : CreateEffect.notify t ∈ closedChannelEffects w message channel) :
    w.userActive = false ∧
      (w.mentionsCurrentUserExplicitly message = true ∨
        channel.type = channelTypeDM ∨ channel.type = channelTypeGroupDM) := by
  unfold closedChannelEffects at h
  split at h
  · simp only [List.mem_append] at h
    rcases h with h | h
    · exact notify_mem_notificationEffects w message channel t h
    · exact absurd h (notify_not_mem_unreadMarkerEffects w message channel t)
  · simp at h

/-- C6: a desktop notification is requested by the message-create worker
only when the user is currently inactive and the message either explicitly
mentions the local user or arrived in a DM / group-DM channel; in every
other state no notification effect is emitted.  The theorem quantifies over
every window state, which covers in particular every reachable one. -/
theorem messageCreateWorker_notify_only_when (w : Window) (message : Msg)
    (title : Str)
    (hn : CreateEffect.notify title ∈ (messageCreateWorker w message).2) :
    w.userActive = false ∧
    ∃ channel, stateChannel w message.channelID = some channel ∧
      (w.mentionsCurrentUserExplicitly message = true ∨
        channel.type = channelTypeDM ∨ channel.type = channelTypeGroupDM) := by
  unfold messageCreateWorker at hn
  cases hch : stateChannel w message.channelID with
  | none => rw [hch] at hn; simp at hn
  | some channel =>
    rw [hch] at hn
    simp only at hn
    by_cases hauth : message.author.id = w.sessionState.user.id
    · rw [if_pos hauth] at hn
      simp only [List.mem_append] at hn
      rcases hn with ((hn | hn) | hn) | hn
      · exact absurd hn (notify_not_mem_openChannelEffects w message channel title)
      · exact absurd hn (notify_not_mem_guildIndicatorEffects w channel title)
      · exact absurd hn (notify_not_mem_reorderEffects _ title)
      · simp at hn
    · rw [if_neg hauth] at hn
      simp only [List.mem_append] at hn
      rcases hn with ((hn | hn) | hn) | hn
      · exact absurd hn (notify_not_mem_openChannelEffects w message channel title)
      · exact absurd hn (notify_not_mem_guildIndicatorEffects w channel title)
      · exact absurd hn (notify_not_mem_reorderEffects _ title)
      · have h2 := notify_mem_closedChannelEffects w message _ title hn
        exact ⟨h2.1, channel, rfl, h2.2⟩

/-- A second user, author of incoming messages. -/
def bobUser : User :=
  { id := ("u2").toList, username := ("bob").toList,
    discriminator := ("0002").toList, premiumType := 0 }

/-- An incoming DM from `bobUser`. -/
def incomingMsg : Msg :=
  { id := ("m1").toList, channelID := ("dm1").toList, guildID := [],
    author := bobUser, content := ("hi").toList, mentions := [],
    mentionRoles := [], mentionEveryone := false }

/-- An inactive window with notifications enabled and the DM in the cache. -/
def notifyWindow : Window :=
  { baseWindow with sessionState :=
      { user := sampleUser, guilds := [], channels := [dmChannel],
        selfMemberLookup := fun _ => none } }

/-- Witness for C6: a concrete state in which the notification fires and the
guard facts hold. -/
theorem messageCreateWorker_notify_only_when_witness :
    CreateEffect.notify (("Cordless - bob").toList) ∈
      (messageCreateWorker notifyWindow incomingMsg).2 ∧
    notifyWindow.userActive = false ∧
    ∃ channel, stateChannel notifyWindow incomingMsg.channelID = some channel ∧
      (notifyWindow.mentionsCurrentUserExplicitly incomingMsg = true ∨
        channel.type = channelTypeDM ∨ channel.type = channelTypeGroupDM) :=
  ⟨by decide,
    messageCreateWorker_notify_only_when notifyWindow incomingMsg
      (("Cordless - bob").toList) (by decide)⟩

/-! ### Claim C7 -/

theorem updateChatRows_found (edited : Msg) :
    ∀ (l : List Msg), (∃ m ∈ l, m.id = edited.id) →
      ∃ l₁ m l₂, l = l₁ ++ m :: l₂ ∧ m.id = edited.id ∧
        (∀ x ∈ l₁, x.id ≠ edited.id) ∧
        updateChatRows edited l =
          (l₁ ++ patchEditedMessage edited m :: l₂,
            some (patchEditedMessage edited m)) := by
  intro l
  induction l with
  | nil => rintro ⟨m, hm, _⟩; exact absurd hm (by simp)
  | cons head rest ih =>
    intro hex
    by_cases hh : head.id = edited.id
    · refine ⟨[], head, rest, by simp, hh, by simp, ?_⟩
      unfold updateChatRows
      rw [if_pos hh]
      simp
    · have hex2 : ∃ m ∈ rest, m.id = edited.id := by
        rcases hex with ⟨m, hm, hid⟩
        rcases List.mem_cons.mp hm with rfl | hm2
        · exact absurd hid hh
        · exact ⟨m, hm2, hid⟩
      obtain ⟨l₁, m, l₂, hsplit, hmid, hne, hrows⟩ := ih hex2
      refine ⟨head :: l₁, m, l₂, by simp [hsplit], hmid, ?_, ?_⟩
      · intro x hx
        rcases List.mem_cons.mp hx with rfl | hx2
        · exact hh
        · exact hne x hx2
      · unfold updateChatRows
        rw [if_neg hh, hrows]
        simp

/-- C7: a message-update event with no content ("just-embed edit") is
dropped before anything is enqueued and changes nothing; otherwise, when the
edited message belongs to the open channel and a cached row carries its id,
the first such row has exactly its content, mentions, mention-roles and
mention-everyone fields replaced, a UI update is requested for exactly that
row, and every other cached row (the rows before and after the match) is
left unchanged. -/
theorem messageUpdateEvent_merge (w : Window) (edited : Msg) :
    (edited.content = [] → messageUpdateEvent w edited = (w, none)) ∧
    (∀ sel, edited.content ≠ [] → w.selectedChannel = some sel →
      sel.id = edited.channelID →
      (∃ m ∈ w.chatViewData, m.id = edited.id) →
      ∃ l₁ m l₂, w.chatViewData = l₁ ++ m :: l₂ ∧ m.id = edited.id ∧
        (∀ x ∈ l₁, x.id ≠ edited.id) ∧
        (messageUpdateEvent w edited).1.chatViewData =
          l₁ ++ patchEditedMessage edited m :: l₂ ∧
        (messageUpdateEvent w edited).2 =
          some (patchEditedMessage edited m)) := by
  constructor
  · intro h
    unfold messageUpdateEvent
    rw [if_pos h]
  · intro sel hc hsel hid hex
    obtain ⟨l₁, m, l₂, hsplit, hmid, hne, hrows⟩ :=
      updateChatRows_found edited w.chatViewData hex
    refine ⟨l₁, m, l₂, hsplit, hmid, hne, ?_, ?_⟩ <;>
    · unfold messageUpdateEvent messageEditWorker
      rw [if_neg hc]
      simp only [hsel]
      rw [if_pos hid, hrows]

/-- A cached row unrelated to the edit. -/
def rowA : Msg :=
  { id := ("mA").toList, channelID := ("dm1").toList, guildID := [],
    author := bobUser, content := ("first").toList, mentions := [],
    mentionRoles := [], mentionEveryone := false }

/-- The cached row the edit targets. -/
def rowB : Msg :=
  { id := ("mB").toList, channelID := ("dm1").toList, guildID := [],
    author := bobUser, content := ("old text").toList, mentions := [],
    mentionRoles := [], mentionEveryone := false }

/-- An edit event replacing the content of `rowB`. -/
def editEvent : Msg :=
  { id := ("mB").toList, channelID := ("dm1").toList, guildID := [],
    author := bobUser, content := ("new text").toList,
    mentions := [("u1").toList], mentionRoles := [],
    mentionEveryone := true }

/-- An embed-only update of `rowB` (empty content). -/
def embedOnlyEvent : Msg :=
  { editEvent with content := [] }

/-- A window with the DM open and two cached rows. -/
def chatWindow : Window :=
  { notifyWindow with selectedChannel := some dmChannel,
                      chatViewData := [rowA, rowB] }

/-- Witness for C7: the embed-only event is dropped, and the concrete edit
patches exactly the second row. -/
theorem messageUpdateEvent_merge_witness :
    (messageUpdateEvent chatWindow embedOnlyEvent = (chatWindow, none)) ∧
    (∃ l₁ m l₂, chatWindow.chatViewData = l₁ ++ m :: l₂ ∧
      m.id = editEvent.id ∧ (∀ x ∈ l₁, x.id ≠ editEvent.id) ∧
      (messageUpdateEvent chatWindow editEvent).1.chatViewData =
        l₁ ++ patchEditedMessage editEvent m :: l₂ ∧
      (messageUpdateEvent chatWindow editEvent).2 =
        some (patchEditedMessage editEvent m)) :=
  ⟨(messageUpdateEvent_merge chatWindow embedOnlyEvent).1 rfl,
    (messageUpdateEvent_merge chatWindow editEvent).2 dmChannel
      (by decide) rfl rfl ⟨rowB, by decide, rfl⟩⟩

/-! ### Claims C8 and C9 -/

theorem findMatchInGuildLoop_spec (w : Window) (guildID : Str)
    (omitGW : Bool) (seq : Str) :
    ∀ emojis : List Emoji,
      findMatchInGuildLoop w guildID omitGW seq emojis = [] ∨
      ∃ e ∈ emojis, e.animated = false ∧
        findMatchInGuildLoop w guildID omitGW seq emojis = plainEmojiRef e := by
  intro emojis
  induction emojis with
  | nil => exact Or.inl rfl
  | cons e rest ih =>
    have hrest : ∀ h,
        (findMatchInGuildLoop w guildID omitGW seq rest = h) →
        (findMatchInGuildLoop w guildID omitGW seq rest = [] ∨
          ∃ e2 ∈ e :: rest, e2.animated = false ∧
            findMatchInGuildLoop w guildID omitGW seq rest = plainEmojiRef e2) := by
      intro h _
      rcases ih with h2 | ⟨e2, he2, han, heq⟩
      · exact Or.inl h2
      · exact Or.inr ⟨e2, List.mem_cons_of_mem e he2, han, heq⟩
    unfold findMatchInGuildLoop
    split
    · exact hrest _ rfl
    · rename_i ha
      split
      · split
        · exact hrest _ rfl
        · refine Or.inr ⟨e, List.mem_cons_self e rest, ?_, rfl⟩
          simpa using ha
      · exact hrest _ rfl

theorem findMatchInGuild_spec (w : Window) (g : Guild) (omitGW : Bool)
    (seq : Str) :
    findMatchInGuild w g omitGW seq = [] ∨
    ∃ e ∈ g.emojis, e.animated = false ∧
      findMatchInGuild w g omitGW seq = plainEmojiRef e :=
  findMatchInGuildLoop_spec w g.id omitGW seq g.emojis

theorem findGlobalMatch_spec (w : Window) (seq : Str) :
    ∀ guilds : List Guild,
      findGlobalMatch w seq guilds = [] ∨
      ∃ g ∈ guilds, ∃ e ∈ g.emojis, e.animated = false ∧
        findGlobalMatch w seq guilds = plainEmojiRef e := by
  intro guilds
  induction guilds with
  | nil => exact Or.inl rfl
  | cons g rest ih =>
    unfold findGlobalMatch
    by_cases hg : findMatchInGuild w g false seq = []
    · rw [if_neg (by simpa using hg)]
      rcases ih with h | ⟨g2, hg2, e, he, han, heq⟩
      · exact Or.inl h
      · exact Or.inr ⟨g2, List.mem_cons_of_mem g hg2, e, he, han, heq⟩
    · rw [if_pos (by simpa using hg)]
      rcases findMatchInGuild_spec w g false seq with h | ⟨e, he, han, heq⟩
      · exact absurd h hg
      · exact Or.inr ⟨g, List.mem_cons_self g rest, e, he, han, heq⟩

theorem emojiReplacementDefault_spec (w : Window) (cg : Option Guild)
    (m : Str) :
    emojiReplacementDefault w cg m = m ∨
    ∃ e, e.animated = false ∧
      ((∃ g, cg = some g ∧ e ∈ g.emojis) ∨
        ∃ g ∈ w.sessionState.guilds, e ∈ g.emojis) ∧
      emojiReplacementDefault w cg m = matchPre m ++ plainEmojiRef e := by
  cases cg with
  | none =>
    simp only [emojiReplacementDefault]
    by_cases hglob : findGlobalMatch w (matchSeq m) w.sessionState.guilds = []
    · rw [if_neg (by simpa using hglob)]
      exact Or.inl rfl
    · rw [if_pos (by simpa using hglob)]
      rcases findGlobalMatch_spec w (matchSeq m) w.sessionState.guilds with
        h | ⟨g, hg, e, he, han, heq⟩
      · exact absurd h hglob
      · exact Or.inr ⟨e, han, Or.inr ⟨g, hg, he⟩, by rw [heq]⟩
  | some g =>
    simp only [emojiReplacementDefault]
    by_cases hloc : findMatchInGuild w g true (matchSeq m) = []
    · rw [if_neg (by simpa using hloc)]
      by_cases hglob : findGlobalMatch w (matchSeq m) w.sessionState.guilds = []
      · rw [if_neg (by simpa using hglob)]
        exact Or.inl rfl
      · rw [if_pos (by simpa using hglob)]
        rcases findGlobalMatch_spec w (matchSeq m) w.sessionState.guilds with
          h | ⟨g2, hg2, e, he, han, heq⟩
        · exact absurd h hglob
        · exact Or.inr ⟨e, han, Or.inr ⟨g2, hg2, he⟩, by rw [heq]⟩
    · rw [if_pos (by simpa using hloc)]
      rcases findMatchInGuild_spec w g true (matchSeq m) with
        h | ⟨e, he, han, heq⟩
      · exact absurd h hloc
      · exact Or.inr ⟨e, han, Or.inl ⟨g, rfl, he⟩, by rw [heq]⟩

/-- C8: for every user not entitled to arbitrary custom content (neither
nitro nor nitro-classic premium type), `replaceCustomEmojiSequences` runs
the default (non-nitro) match replacement, and that replacement never
resolves a shortcode to an animated emoji: each match is either left
unchanged or replaced by the plain reference `<:name:id>` of an emoji whose
`animated` flag is false (animated candidates are skipped by
`findMatchInGuild`). -/
theorem replaceCustomEmoji_non_nitro_never_animated (w : Window)
    (cg : Option Guild) (msg : Str) (hprem : ¬ isNitroUser w) :
    replaceCustomEmojiSequences w cg msg =
      emojiRegexReplaceAll (emojiReplacementDefault w cg) msg ∧
    ∀ m : Str, emojiReplacementDefault w cg m = m ∨
      ∃ e, e.animated = false ∧
        ((∃ g, cg = some g ∧ e ∈ g.emojis) ∨
          ∃ g ∈ w.sessionState.guilds, e ∈ g.emojis) ∧
        emojiReplacementDefault w cg m = matchPre m ++ plainEmojiRef e := by
  constructor
  · unfold replaceCustomEmojiSequences
    rw [if_neg hprem]
  · intro m
    exact emojiReplacementDefault_spec w cg m

/-- An animated custom emoji named smile. -/
def animatedSmile : Emoji :=
  { name := ("smile").toList, id := ("900").toList, animated := true,
    roles := [] }

/-- A guild whose only smile emoji is animated. -/
def gAnim : Guild :=
  { id := ("gA").toList, name := ("Anim Guild").toList, channels := [],
    members := [], emojis := [animatedSmile] }

/-- A non-premium window whose only cached guild offers only an animated
smile emoji. -/
def emojiWindow : Window :=
  { baseWindow with sessionState :=
      { user := sampleUser, guilds := [gAnim], channels := [],
        selfMemberLookup := fun _ => none } }

/-- Witness for C8: concretely, the non-premium path leaves `:smile:`
unchanged although an animated emoji of that name exists — the animated
candidate is skipped. -/
theorem replaceCustomEmoji_non_nitro_never_animated_witness :
    (¬ isNitroUser emojiWindow) ∧
    replaceCustomEmojiSequences emojiWindow none ((":smile:").toList) =
      emojiRegexReplaceAll (emojiReplacementDefault emojiWindow none)
        ((":smile:").toList) ∧
    emojiReplacementDefault emojiWindow none ((":smile:").toList) =
      ((":smile:").toList) :=
  ⟨by decide,
    (replaceCustomEmoji_non_nitro_never_animated emojiWindow none
      ((":smile:").toList) (by decide)).1,
    by decide⟩

/-- The non-animated smile emoji of a foreign guild. -/
def smileOther : Emoji :=
  { name := ("smile").toList, id := ("111").toList, animated := false,
    roles := [] }

/-- The non-animated smile emoji of the local guild. -/
def smileLocal : Emoji :=
  { name := ("smile").toList, id := ("222").toList, animated := false,
    roles := [] }

/-- A foreign guild carrying `smileOther`, listed first in the cache. -/
def gOther : Guild :=
  { id := ("gO").toList, name := ("Other Guild").toList, channels := [],
    members := [], emojis := [smileOther] }

/-- The local guild carrying `smileLocal`. -/
def gLocal : Guild :=
  { id := ("gL").toList, name := ("Local Guild").toList, channels := [],
    members := [], emojis := [smileLocal] }

/-- A nitro user. -/
def carolUser : User :=
  { id := ("u3").toList, username := ("carol").toList,
    discriminator := ("0003").toList, premiumType := userPremiumTypeNitro }

/-- A window of a nitro user with the foreign guild cached before the local
one. -/
def nitroWindow : Window :=
  { baseWindow with sessionState :=
      { user := carolUser, guilds := [gOther, gLocal], channels := [],
        selfMemberLookup := fun _ => none } }

/-- C9, counterexample to the claim as stated ("for all users"): for a
nitro user, the local guild has an eligible smile emoji (id 222), yet
`:smile:` resolves to the same-named emoji of another guild (id 111) that
happens to come first in the cached guild list — the nitro branch never
consults the channel guild. -/
theorem emoji_local_priority_counterexample :
    findMatchInGuild nitroWindow gLocal true (("smile").toList) =
      ("<:smile:222>").toList ∧
    replaceCustomEmojiSequences nitroWindow (some gLocal)
      ((":smile:").toList) = ("<:smile:111>").toList := by
  constructor <;> decide

/-- C9, amended: for users without a premium account, local-guild emojis do
take priority: whenever the channel guild has an eligible match for the
shortcode, the match replacement resolves to an emoji of that guild. -/
theorem emoji_local_priority_non_nitro (w : Window) (g : Guild) (msg m : Str)
    (hprem : ¬ isNitroUser w)
    (hlocal : findMatchInGuild w g true (matchSeq m) ≠ []) :
    replaceCustomEmojiSequences w (some g) msg =
      emojiRegexReplaceAll (emojiReplacementDefault w (some g)) msg ∧
    ∃ e ∈ g.emojis, e.animated = false ∧
      emojiReplacementDefault w (some g) m = matchPre m ++ plainEmojiRef e := by
  constructor
  · unfold replaceCustomEmojiSequences
    rw [if_neg hprem]
  · simp only [emojiReplacementDefault]
    rw [if_pos (by simpa using hlocal)]
    rcases findMatchInGuild_spec w g true (matchSeq m) with h | ⟨e, he, han, heq⟩
    · exact absurd h hlocal
    · exact ⟨e, he, han, by rw [heq]⟩

/-- A non-premium window with the same two guilds as `nitroWindow`. -/
def plainEmojiWindow : Window :=
  { baseWindow with sessionState :=
      { user := sampleUser, guilds := [gOther, gLocal], channels := [],
        selfMemberLookup := fun _ => none } }

/-- Witness for the amended C9: the non-premium user gets the local guild
emoji (id 222) although the foreign guild (id 111) comes first. -/
theorem emoji_local_priority_non_nitro_witness :
    (¬ isNitroUser plainEmojiWindow) ∧
    (findMatchInGuild plainEmojiWindow gLocal true
      (matchSeq ((":smile:").toList)) ≠ []) ∧
    replaceCustomEmojiSequences plainEmojiWindow (some gLocal)
      ((":smile:").toList) =
      emojiRegexReplaceAll (emojiReplacementDefault plainEmojiWindow
        (some gLocal)) ((":smile:").toList) ∧
    emojiReplacementDefault plainEmojiWindow (some gLocal)
      ((":smile:").toList) = ("<:smile:222>").toList :=
  ⟨by decide, by decide,
    (emoji_local_priority_non_nitro plainEmojiWindow gLocal
      ((":smile:").toList) ((":smile:").toList) (by decide) (by decide)).1,
    by decide⟩
